import Mathlib

/-!
# Verification of the location-task-reminder core (src/src/App.jsx)

This file shallowly embeds the core logic of the application:

* `extractCoordinates` — the URL coordinate parser (App.jsx lines 38-78).
  URLs are modelled as `List Char`; the JavaScript regular-expression
  searches are modelled by `scan`, which tries a pattern matcher at every
  start position (leftmost match first), exactly as `String.prototype.match`
  does for the patterns in the source (each of which is backtracking-free
  because every repeated character class is disjoint from the literal that
  follows it).  `parseFloat` on a matched group of the shape `-?\d+\.\d+`
  is modelled exactly: the result is the decimal number written in the
  group, represented as an integer mantissa with a power-of-ten exponent
  (`DecNum`).
* `calculateDistance` — the haversine distance (App.jsx lines 81-94) over
  the reals; `Math.atan2` is modelled by `atan2` below with the
  standard real-function semantics of the JavaScript operations.
* `checkProximity` — the proximity/notification pass (App.jsx lines
  97-130).  React's state updates are modelled faithfully: the membership
  test `!notifiedTasks.has(task.id)` reads the render-time snapshot
  (`prior`), while the `setNotifiedTasks(prev => …)` updater functions
  chain on the accumulated state; `Date.now()` is modelled as an explicit
  timestamp argument `now`.
* `addTask` / `deleteTask` — the task-store operations (App.jsx lines
  132-166), including JavaScript truthiness: `if (!coords)` catches only
  `null`, not the string `'SHORT_URL'`, and property access on that string
  yields `undefined`, modelled as `none`.
-/

/-! ## CoordinateExtractor -/

/-- The exact value of a matched `-?\d+\.\d+` group, as produced by
`parseFloat`: the decimal number `mant / 10 ^ exp`. -/
structure DecNum where
  mant : ℤ
  exp : ℕ
deriving DecidableEq, Repr

/-- Numeric value of a `DecNum`. -/
def DecNum.toRat (d : DecNum) : ℚ := (d.mant : ℚ) / 10 ^ d.exp

/-- Value of a digit string (most significant digit first). -/
def digitsVal (l : List Char) : ℕ :=
  l.foldl (fun n c => 10 * n + (c.toNat - 48)) 0

/-- The number denoted by an optional sign, integer digits and fraction
digits, exactly as `parseFloat` reads a `-?\d+\.\d+` group. -/
def decOf (neg : Bool) (ip fp : List Char) : DecNum :=
  ⟨(if neg then -1 else 1) * (digitsVal ip * 10 ^ fp.length + digitsVal fp), fp.length⟩

/-- Match a `-?\d+\.\d+` group at the head of `cs` (no sign handling);
greedy `\d+` runs are maximal digit runs, which is exact because a digit
can never match the `.` or the following literal. -/
def matchDecCore (neg : Bool) (cs : List Char) : Option (DecNum × List Char) :=
  let ip := cs.takeWhile Char.isDigit
  let r1 := cs.dropWhile Char.isDigit
  if ip.isEmpty then none else
  match r1 with
  | '.' :: r2 =>
    let fp := r2.takeWhile Char.isDigit
    let r3 := r2.dropWhile Char.isDigit
    if fp.isEmpty then none else some (decOf neg ip fp, r3)
  | _ => none

/-- Match a `-?\d+\.\d+` group at the head of `cs`. -/
def matchDec (cs : List Char) : Option (DecNum × List Char) :=
  if cs.head? = some '-' then matchDecCore true cs.tail else matchDecCore false cs

/-- Strip an exact literal prefix. -/
def stripPre : List Char → List Char → Option (List Char)
  | [], cs => some cs
  | _ :: _, [] => none
  | p :: ps, c :: cs => if c = p then stripPre ps cs else none

/-- Match `(-?\d+\.\d+),(-?\d+\.\d+)` at the head of `cs`, returning the
two captured numbers. -/
def matchPair (cs : List Char) : Option (DecNum × DecNum) :=
  (matchDec cs).bind fun p =>
    (stripPre [','] p.2).bind fun r2 =>
      (matchDec r2).map fun q => (p.1, q.1)

/-- Pattern 1 `@(-?\d+\.\d+),(-?\d+\.\d+)` tried at one start position. -/
def matchAt1 (cs : List Char) : Option (DecNum × DecNum) :=
  (stripPre ['@'] cs).bind matchPair

/-- Pattern 2 `q=(-?\d+\.\d+),(-?\d+\.\d+)` tried at one start position. -/
def matchAt2 (cs : List Char) : Option (DecNum × DecNum) :=
  (stripPre ['q', '='] cs).bind matchPair

/-- Pattern 3 `!3d(-?\d+\.\d+)!4d(-?\d+\.\d+)` tried at one start position. -/
def matchAt3 (cs : List Char) : Option (DecNum × DecNum) :=
  (stripPre ['!', '3', 'd'] cs).bind fun r =>
    (matchDec r).bind fun p =>
      (stripPre ['!', '4', 'd'] p.2).bind fun r2 =>
        (matchDec r2).map fun q => (p.1, q.1)

/-- Pattern 4 `\/maps\/place\/[^/]+\/@(-?\d+\.\d+),(-?\d+\.\d+)` tried at
one start position.  The `[^/]+` run is forced to end at the first `/`
(the class excludes `/` and the next pattern character is `/`), so the
greedy match is deterministic. -/
def matchAt4 (cs : List Char) : Option (DecNum × DecNum) :=
  (stripPre "/maps/place/".data cs).bind fun r =>
    let seg := r.takeWhile (fun c => c ≠ '/')
    let r2 := r.dropWhile (fun c => c ≠ '/')
    if seg.isEmpty then none else
    (stripPre ['/', '@'] r2).bind matchPair

/-- Leftmost-match search: try a position matcher at every start position
of the text, first success wins — the semantics of `url.match(regex)` for
the source's patterns. -/
def scan (f : List Char → Option (DecNum × DecNum)) : List Char → Option (DecNum × DecNum)
  | [] => f []
  | c :: cs =>
    match f (c :: cs) with
    | some r => some r
    | none => scan f cs

/-- Result of `extractCoordinates`: a coordinate pair, the string
`'SHORT_URL'`, or `null`. -/
inductive ExtractResult where
  | found (lat lng : DecNum)
  | shortUrl
  | unparseable
deriving DecidableEq, Repr

/-- Does `l` start with `p`? -/
def startsWith : List Char → List Char → Bool
  | [], _ => true
  | _ :: _, [] => false
  | p :: ps, c :: cs => c = p && startsWith ps cs

/-- `String.prototype.includes`: does `l` contain `p` as a contiguous
substring? -/
def containsSeq (p : List Char) : List Char → Bool
  | [] => startsWith p []
  | c :: cs => startsWith p (c :: cs) || containsSeq p cs

/-- The short-link test of App.jsx line 70:
`url.includes('maps.app.goo.gl') || url.includes('goo.gl')`. -/
def isShortLink (url : List Char) : Bool :=
  containsSeq "maps.app.goo.gl".data url || containsSeq "goo.gl".data url

/-- `extractCoordinates` (App.jsx lines 38-78): try the four coordinate
patterns in order, first success wins; otherwise report a short link or
fail. -/
def extractCoordinates (url : List Char) : ExtractResult :=
  match scan matchAt1 url with
  | some p => .found p.1 p.2
  | none =>
    match scan matchAt2 url with
    | some p => .found p.1 p.2
    | none =>
      match scan matchAt3 url with
      | some p => .found p.1 p.2
      | none =>
        match scan matchAt4 url with
        | some p => .found p.1 p.2
        | none => if isShortLink url then .shortUrl else .unparseable

/-- `extractCoordinates` with the pattern-4 branch removed (for the
reachability question about that branch). -/
def extractCoordinatesNoP4 (url : List Char) : ExtractResult :=
  match scan matchAt1 url with
  | some p => .found p.1 p.2
  | none =>
    match scan matchAt2 url with
    | some p => .found p.1 p.2
    | none =>
      match scan matchAt3 url with
      | some p => .found p.1 p.2
      | none => if isShortLink url then .shortUrl else .unparseable

/-! ## Parsing lemmas for the extractor -/

/-- The list does not begin with a digit (boundary condition for the
greedy `\d+` runs). -/
def noDigitHead : List Char → Prop
  | [] => True
  | c :: _ => c.isDigit = false

/-- Rendering of a `-?\d+\.\d+` source text from its sign and digit
groups. -/
def renderDec (neg : Bool) (ip fp : List Char) : List Char :=
  (if neg then ['-'] else []) ++ ip ++ '.' :: fp

/-- A valid signed-decimal source: nonempty integer digits and at least
one fractional digit. -/
def IsDecStr (ip fp : List Char) : Prop :=
  ip ≠ [] ∧ fp ≠ [] ∧ (∀ c ∈ ip, c.isDigit = true) ∧ (∀ c ∈ fp, c.isDigit = true)

lemma isEmpty_false_of_ne {l : List Char} (h : l ≠ []) : l.isEmpty = false := by
  cases l with
  | nil => exact absurd rfl h
  | cons a t => rfl

lemma takeWhile_app {p : Char → Bool} {l1 l2 : List Char} (h : ∀ c ∈ l1, p c = true) :
    (l1 ++ l2).takeWhile p = l1 ++ l2.takeWhile p := by
  induction l1 with
  | nil => simp
  | cons c t ih =>
    have hc : p c = true := h c (List.mem_cons_self c t)
    simp only [List.cons_append, List.takeWhile_cons, hc, if_true]
    rw [ih fun x hx => h x (List.mem_cons_of_mem c hx)]

lemma dropWhile_app {p : Char → Bool} {l1 l2 : List Char} (h : ∀ c ∈ l1, p c = true) :
    (l1 ++ l2).dropWhile p = l2.dropWhile p := by
  induction l1 with
  | nil => simp
  | cons c t ih =>
    have hc : p c = true := h c (List.mem_cons_self c t)
    simp only [List.cons_append, List.dropWhile_cons, hc, if_true]
    exact ih fun x hx => h x (List.mem_cons_of_mem c hx)

lemma takeWhile_noDigitHead {l : List Char} (h : noDigitHead l) :
    l.takeWhile Char.isDigit = [] := by
  cases l with
  | nil => rfl
  | cons c t =>
    have h' : c.isDigit = false := h
    simp only [List.takeWhile_cons, h', Bool.false_eq_true, if_false]

lemma dropWhile_noDigitHead {l : List Char} (h : noDigitHead l) :
    l.dropWhile Char.isDigit = l := by
  cases l with
  | nil => rfl
  | cons c t =>
    have h' : c.isDigit = false := h
    simp only [List.dropWhile_cons, h', Bool.false_eq_true, if_false]

lemma matchDecCore_render {neg : Bool} {ip fp rest : List Char}
    (hd : IsDecStr ip fp) (hrest : noDigitHead rest) :
    matchDecCore neg (ip ++ '.' :: (fp ++ rest)) = some (decOf neg ip fp, rest) := by
  obtain ⟨hip, hfp, hipd, hfpd⟩ := hd
  have hdot : ('.' : Char).isDigit = false := by decide
  unfold matchDecCore
  rw [takeWhile_app hipd, dropWhile_app hipd]
  simp only [List.takeWhile_cons, List.dropWhile_cons, hdot, Bool.false_eq_true, if_false,
    List.append_nil, isEmpty_false_of_ne hip, Bool.false_eq_true, if_false]
  rw [takeWhile_app hfpd, dropWhile_app hfpd, takeWhile_noDigitHead hrest,
    dropWhile_noDigitHead hrest]
  simp only [List.append_nil, isEmpty_false_of_ne hfp, Bool.false_eq_true, if_false]

lemma matchDec_render {neg : Bool} {ip fp rest : List Char}
    (hd : IsDecStr ip fp) (hrest : noDigitHead rest) :
    matchDec (renderDec neg ip fp ++ rest) = some (decOf neg ip fp, rest) := by
  cases neg with
  | true =>
    show matchDec ((['-'] ++ ip ++ '.' :: fp) ++ rest) = _
    have : (['-'] ++ ip ++ '.' :: fp) ++ rest = '-' :: (ip ++ '.' :: (fp ++ rest)) := by
      simp
    rw [this]
    unfold matchDec
    simp only [List.head?_cons, if_pos rfl, List.tail_cons]
    exact matchDecCore_render hd hrest
  | false =>
    cases ip with
    | nil => exact absurd rfl hd.1
    | cons c t =>
      have hc : c.isDigit = true := hd.2.2.1 c (List.mem_cons_self c t)
      have heq : renderDec false (c :: t) fp ++ rest = c :: (t ++ '.' :: (fp ++ rest)) := by
        simp [renderDec]
      rw [heq]
      have hcne : ¬((c :: (t ++ '.' :: (fp ++ rest))).head? = some '-') := by
        simp only [List.head?_cons, Option.some.injEq]
        intro h
        rw [h] at hc
        exact absurd hc (by decide)
      unfold matchDec
      rw [if_neg hcne]
      exact matchDecCore_render hd hrest

lemma matchPair_render {neg1 neg2 : Bool} {ip1 fp1 ip2 fp2 rest : List Char}
    (h1 : IsDecStr ip1 fp1) (h2 : IsDecStr ip2 fp2) (hrest : noDigitHead rest) :
    matchPair (renderDec neg1 ip1 fp1 ++ ',' :: (renderDec neg2 ip2 fp2 ++ rest)) =
      some (decOf neg1 ip1 fp1, decOf neg2 ip2 fp2) := by
  have hcomma : noDigitHead (',' :: (renderDec neg2 ip2 fp2 ++ rest)) := by
    show (',' : Char).isDigit = false
    decide
  unfold matchPair
  rw [matchDec_render h1 hcomma]
  show ((matchDec (renderDec neg2 ip2 fp2 ++ rest)).map
      fun q => (decOf neg1 ip1 fp1, q.1)) = _
  rw [matchDec_render h2 hrest]
  rfl

/-! ## Scan lemmas -/

lemma scan_eq_none_iff {f : List Char → Option (DecNum × DecNum)} {cs : List Char} :
    scan f cs = none ↔ ∀ t, t <:+ cs → f t = none := by
  induction cs with
  | nil =>
    unfold scan
    constructor
    · intro h t ht
      rw [List.suffix_nil.mp ht]
      exact h
    · intro h
      exact h [] (List.suffix_refl [])
  | cons c cs ih =>
    unfold scan
    cases hf : f (c :: cs) with
    | some r =>
      simp only []
      constructor
      · intro h
        exact absurd h (by simp)
      · intro h
        rw [h (c :: cs) (List.suffix_refl _)] at hf
        exact absurd hf (by simp)
    | none =>
      simp only []
      rw [ih]
      constructor
      · intro h t ht
        rcases List.suffix_cons_iff.mp ht with h1 | h2
        · rw [h1]; exact hf
        · exact h t h2
      · intro h t ht
        exact h t (ht.trans (List.suffix_cons c cs))

lemma scan_eq_some {f : List Char → Option (DecNum × DecNum)} {cs : List Char}
    {p : DecNum × DecNum} (h : scan f cs = some p) : ∃ t, t <:+ cs ∧ f t = some p := by
  induction cs with
  | nil =>
    exact ⟨[], List.suffix_refl [], h⟩
  | cons c cs ih =>
    unfold scan at h
    cases hf : f (c :: cs) with
    | some r =>
      rw [hf] at h
      simp only [Option.some.injEq] at h
      exact ⟨c :: cs, List.suffix_refl _, by rw [hf, h]⟩
    | none =>
      rw [hf] at h
      obtain ⟨t, ht, hft⟩ := ih h
      exact ⟨t, ht.trans (List.suffix_cons c cs), hft⟩

lemma scan_skip {f : List Char → Option (DecNum × DecNum)} :
    ∀ (pre suf : List Char), (∀ t, t <:+ pre → t ≠ [] → f (t ++ suf) = none) →
      scan f (pre ++ suf) = scan f suf := by
  intro pre
  induction pre with
  | nil => intro suf _; rw [List.nil_append]
  | cons c pre ih =>
    intro suf h
    have hc : f (c :: (pre ++ suf)) = none :=
      h (c :: pre) (List.suffix_refl _) (by simp)
    show scan f (c :: (pre ++ suf)) = scan f suf
    have hstep : scan f (c :: (pre ++ suf)) =
        match f (c :: (pre ++ suf)) with
        | some r => some r
        | none => scan f (pre ++ suf) := rfl
    rw [hstep, hc]
    exact ih suf fun t ht hne => h t (ht.trans (List.suffix_cons c pre)) hne

lemma scan_cons_some {f : List Char → Option (DecNum × DecNum)} {c : Char} {cs : List Char}
    {p : DecNum × DecNum} (h : f (c :: cs) = some p) : scan f (c :: cs) = some p := by
  unfold scan
  rw [h]

/-! ## Pattern-failure lemmas -/

lemma matchAt1_nil : matchAt1 [] = none := rfl

lemma matchAt1_cons_ne {c : Char} {t : List Char} (h : c ≠ '@') :
    matchAt1 (c :: t) = none := by
  unfold matchAt1 stripPre
  rw [if_neg h]
  rfl

lemma matchAt2_nil : matchAt2 [] = none := rfl

lemma matchAt2_cons_ne {c : Char} {t : List Char} (h : c ≠ 'q') :
    matchAt2 (c :: t) = none := by
  unfold matchAt2 stripPre
  rw [if_neg h]
  rfl

lemma scan1_none {cs : List Char} (h : '@' ∉ cs) : scan matchAt1 cs = none := by
  rw [scan_eq_none_iff]
  intro t ht
  cases t with
  | nil => exact matchAt1_nil
  | cons c t' =>
    have hc : c ∈ cs := ht.subset (List.mem_cons_self c t')
    exact matchAt1_cons_ne (fun he => h (he ▸ hc))

lemma scan2_none {cs : List Char} (h : 'q' ∉ cs) : scan matchAt2 cs = none := by
  rw [scan_eq_none_iff]
  intro t ht
  cases t with
  | nil => exact matchAt2_nil
  | cons c t' =>
    have hc : c ∈ cs := ht.subset (List.mem_cons_self c t')
    exact matchAt2_cons_ne (fun he => h (he ▸ hc))

/-! ## The four supported URL shapes -/

/-- Shape 1: `@lat,lng`. -/
def mkUrl1 (neg1 : Bool) (ip1 fp1 : List Char) (neg2 : Bool) (ip2 fp2 : List Char) :
    List Char :=
  '@' :: (renderDec neg1 ip1 fp1 ++ ',' :: renderDec neg2 ip2 fp2)

/-- Shape 2: `q=lat,lng`. -/
def mkUrl2 (neg1 : Bool) (ip1 fp1 : List Char) (neg2 : Bool) (ip2 fp2 : List Char) :
    List Char :=
  'q' :: '=' :: (renderDec neg1 ip1 fp1 ++ ',' :: renderDec neg2 ip2 fp2)

/-- Shape 3: `!3d{lat}!4d{lng}`. -/
def mkUrl3 (neg1 : Bool) (ip1 fp1 : List Char) (neg2 : Bool) (ip2 fp2 : List Char) :
    List Char :=
  '!' :: '3' :: 'd' :: (renderDec neg1 ip1 fp1 ++ '!' :: '4' :: 'd' :: renderDec neg2 ip2 fp2)

/-- Shape 4: `/maps/place/<name>/@lat,lng`. -/
def mkUrl4 (name : List Char) (neg1 : Bool) (ip1 fp1 : List Char) (neg2 : Bool)
    (ip2 fp2 : List Char) : List Char :=
  "/maps/place/".data ++ (name ++ '/' :: mkUrl1 neg1 ip1 fp1 neg2 ip2 fp2)

/-- A path segment usable as the `<name>` part of shape 4: nonempty, no
slash, and no `@` (so that it does not itself start a pattern-1 match). -/
def GoodSeg (name : List Char) : Prop :=
  name ≠ [] ∧ '/' ∉ name ∧ '@' ∉ name

lemma noDigitHead_nil : noDigitHead [] := trivial

lemma noDigitHead_cons {c : Char} {t : List Char} (h : c.isDigit = false) :
    noDigitHead (c :: t) := h

lemma matchDec_render_nil {neg : Bool} {ip fp : List Char} (hd : IsDecStr ip fp) :
    matchDec (renderDec neg ip fp) = some (decOf neg ip fp, []) := by
  have h := @matchDec_render neg ip fp [] hd noDigitHead_nil
  rwa [List.append_nil] at h

lemma matchPair_render_nil {neg1 neg2 : Bool} {ip1 fp1 ip2 fp2 : List Char}
    (h1 : IsDecStr ip1 fp1) (h2 : IsDecStr ip2 fp2) :
    matchPair (renderDec neg1 ip1 fp1 ++ ',' :: renderDec neg2 ip2 fp2) =
      some (decOf neg1 ip1 fp1, decOf neg2 ip2 fp2) := by
  have h := @matchPair_render neg1 neg2 ip1 fp1 ip2 fp2 [] h1 h2 noDigitHead_nil
  rwa [List.append_nil] at h

lemma not_mem_render {x : Char} {neg : Bool} {ip fp : List Char} (hd : IsDecStr ip fp)
    (hx : x.isDigit = false) (hx1 : x ≠ '-') (hx2 : x ≠ '.') :
    x ∉ renderDec neg ip fp := by
  intro h
  simp only [renderDec, List.mem_append, List.mem_cons] at h
  rcases h with (h | h) | h
  · cases neg with
    | true => simp at h; exact hx1 h
    | false => simp at h
  · rw [hd.2.2.1 x h] at hx; exact absurd hx (by simp)
  · rcases h with h | h
    · exact hx2 h
    · rw [hd.2.2.2 x h] at hx; exact absurd hx (by simp)

/-! ## Extraction succeeds on each of the four shapes -/

lemma scan1_mkUrl1 {neg1 neg2 : Bool} {ip1 fp1 ip2 fp2 : List Char}
    (h1 : IsDecStr ip1 fp1) (h2 : IsDecStr ip2 fp2) :
    scan matchAt1 (mkUrl1 neg1 ip1 fp1 neg2 ip2 fp2) =
      some (decOf neg1 ip1 fp1, decOf neg2 ip2 fp2) := by
  have hm : matchAt1 (mkUrl1 neg1 ip1 fp1 neg2 ip2 fp2) =
      some (decOf neg1 ip1 fp1, decOf neg2 ip2 fp2) := by
    unfold matchAt1 mkUrl1
    simp only [stripPre, if_pos rfl, Option.bind_eq_bind]
    show matchPair (renderDec neg1 ip1 fp1 ++ ',' :: renderDec neg2 ip2 fp2) = _
    exact matchPair_render_nil h1 h2
  unfold mkUrl1 at hm ⊢
  exact scan_cons_some hm

lemma extract_mkUrl1 {neg1 neg2 : Bool} {ip1 fp1 ip2 fp2 : List Char}
    (h1 : IsDecStr ip1 fp1) (h2 : IsDecStr ip2 fp2) :
    extractCoordinates (mkUrl1 neg1 ip1 fp1 neg2 ip2 fp2) =
      .found (decOf neg1 ip1 fp1) (decOf neg2 ip2 fp2) := by
  unfold extractCoordinates
  rw [scan1_mkUrl1 h1 h2]

lemma extract_mkUrl2 {neg1 neg2 : Bool} {ip1 fp1 ip2 fp2 : List Char}
    (h1 : IsDecStr ip1 fp1) (h2 : IsDecStr ip2 fp2) :
    extractCoordinates (mkUrl2 neg1 ip1 fp1 neg2 ip2 fp2) =
      .found (decOf neg1 ip1 fp1) (decOf neg2 ip2 fp2) := by
  have hat : '@' ∉ mkUrl2 neg1 ip1 fp1 neg2 ip2 fp2 := by
    intro h
    simp only [mkUrl2, List.mem_cons, List.mem_append] at h
    rcases h with h | h | (h | h | h)
    · exact absurd h (by decide)
    · exact absurd h (by decide)
    · exact not_mem_render h1 (by decide) (by decide) (by decide) h
    · exact absurd h (by decide)
    · exact not_mem_render h2 (by decide) (by decide) (by decide) h
  have hs1 : scan matchAt1 (mkUrl2 neg1 ip1 fp1 neg2 ip2 fp2) = none := scan1_none hat
  have hm : matchAt2 (mkUrl2 neg1 ip1 fp1 neg2 ip2 fp2) =
      some (decOf neg1 ip1 fp1, decOf neg2 ip2 fp2) := by
    unfold matchAt2 mkUrl2
    simp only [stripPre, if_pos rfl, Option.bind_eq_bind]
    show matchPair (renderDec neg1 ip1 fp1 ++ ',' :: renderDec neg2 ip2 fp2) = _
    exact matchPair_render_nil h1 h2
  have hs2 : scan matchAt2 (mkUrl2 neg1 ip1 fp1 neg2 ip2 fp2) =
      some (decOf neg1 ip1 fp1, decOf neg2 ip2 fp2) := by
    unfold mkUrl2 at hm ⊢
    exact scan_cons_some hm
  unfold extractCoordinates
  rw [hs1]
  dsimp only
  rw [hs2]

lemma extract_mkUrl3 {neg1 neg2 : Bool} {ip1 fp1 ip2 fp2 : List Char}
    (h1 : IsDecStr ip1 fp1) (h2 : IsDecStr ip2 fp2) :
    extractCoordinates (mkUrl3 neg1 ip1 fp1 neg2 ip2 fp2) =
      .found (decOf neg1 ip1 fp1) (decOf neg2 ip2 fp2) := by
  have hat : '@' ∉ mkUrl3 neg1 ip1 fp1 neg2 ip2 fp2 := by
    intro h
    simp only [mkUrl3, List.mem_cons, List.mem_append] at h
    rcases h with h | h | h | (h | h | h | h | h)
    · exact absurd h (by decide)
    · exact absurd h (by decide)
    · exact absurd h (by decide)
    · exact not_mem_render h1 (by decide) (by decide) (by decide) h
    · exact absurd h (by decide)
    · exact absurd h (by decide)
    · exact absurd h (by decide)
    · exact not_mem_render h2 (by decide) (by decide) (by decide) h
  have hq : 'q' ∉ mkUrl3 neg1 ip1 fp1 neg2 ip2 fp2 := by
    intro h
    simp only [mkUrl3, List.mem_cons, List.mem_append] at h
    rcases h with h | h | h | (h | h | h | h | h)
    · exact absurd h (by decide)
    · exact absurd h (by decide)
    · exact absurd h (by decide)
    · exact not_mem_render h1 (by decide) (by decide) (by decide) h
    · exact absurd h (by decide)
    · exact absurd h (by decide)
    · exact absurd h (by decide)
    · exact not_mem_render h2 (by decide) (by decide) (by decide) h
  have hs1 : scan matchAt1 (mkUrl3 neg1 ip1 fp1 neg2 ip2 fp2) = none := scan1_none hat
  have hs2 : scan matchAt2 (mkUrl3 neg1 ip1 fp1 neg2 ip2 fp2) = none := scan2_none hq
  have hm : matchAt3 (mkUrl3 neg1 ip1 fp1 neg2 ip2 fp2) =
      some (decOf neg1 ip1 fp1, decOf neg2 ip2 fp2) := by
    unfold matchAt3 mkUrl3
    simp only [stripPre, if_pos rfl, Option.bind_eq_bind]
    show ((matchDec (renderDec neg1 ip1 fp1 ++ '!' :: '4' :: 'd' :: renderDec neg2 ip2 fp2)).bind
      fun p => (stripPre ['!', '4', 'd'] p.2).bind fun r2 =>
        (matchDec r2).map fun q => (p.1, q.1)) = _
    rw [matchDec_render h1 (noDigitHead_cons (by decide))]
    show ((stripPre ['!', '4', 'd'] ('!' :: '4' :: 'd' :: renderDec neg2 ip2 fp2)).bind
      fun r2 => (matchDec r2).map fun q => (decOf neg1 ip1 fp1, q.1)) = _
    simp only [stripPre, if_pos rfl, Option.bind_eq_bind]
    show ((matchDec (renderDec neg2 ip2 fp2)).map fun q => (decOf neg1 ip1 fp1, q.1)) = _
    rw [matchDec_render_nil h2]
    rfl
  have hs3 : scan matchAt3 (mkUrl3 neg1 ip1 fp1 neg2 ip2 fp2) =
      some (decOf neg1 ip1 fp1, decOf neg2 ip2 fp2) := by
    unfold mkUrl3 at hm ⊢
    exact scan_cons_some hm
  unfold extractCoordinates
  rw [hs1]
  dsimp only
  rw [hs2]
  dsimp only
  rw [hs3]

lemma extract_mkUrl4 {name : List Char} {neg1 neg2 : Bool} {ip1 fp1 ip2 fp2 : List Char}
    (hn : GoodSeg name) (h1 : IsDecStr ip1 fp1) (h2 : IsDecStr ip2 fp2) :
    extractCoordinates (mkUrl4 name neg1 ip1 fp1 neg2 ip2 fp2) =
      .found (decOf neg1 ip1 fp1) (decOf neg2 ip2 fp2) := by
  have hsplit : mkUrl4 name neg1 ip1 fp1 neg2 ip2 fp2 =
      (("/maps/place/".data ++ name) ++ ['/']) ++ mkUrl1 neg1 ip1 fp1 neg2 ip2 fp2 := by
    simp [mkUrl4]
  have hatpre : '@' ∉ ("/maps/place/".data ++ name) ++ ['/'] := by
    intro h
    simp only [List.mem_append, List.mem_singleton] at h
    rcases h with (h | h) | h
    · exact absurd h (by decide)
    · exact hn.2.2 h
    · exact absurd h (by decide)
  have hskip : scan matchAt1 (mkUrl4 name neg1 ip1 fp1 neg2 ip2 fp2) =
      scan matchAt1 (mkUrl1 neg1 ip1 fp1 neg2 ip2 fp2) := by
    rw [hsplit]
    apply scan_skip
    intro t ht hne
    cases t with
    | nil => exact absurd rfl hne
    | cons c t' =>
      have hc : c ∈ ("/maps/place/".data ++ name) ++ ['/'] :=
        ht.subset (List.mem_cons_self c t')
      exact matchAt1_cons_ne (fun he => hatpre (he ▸ hc))
  have hs1 : scan matchAt1 (mkUrl4 name neg1 ip1 fp1 neg2 ip2 fp2) =
      some (decOf neg1 ip1 fp1, decOf neg2 ip2 fp2) := by
    rw [hskip]
    exact scan1_mkUrl1 h1 h2
  unfold extractCoordinates
  rw [hs1]

/-! ## Pattern 4 is subsumed by pattern 1 -/

lemma stripPre_eq_append : ∀ {ps cs r : List Char}, stripPre ps cs = some r → cs = ps ++ r := by
  intro ps
  induction ps with
  | nil =>
    intro cs r h
    simp only [stripPre, Option.some.injEq] at h
    rw [h, List.nil_append]
  | cons p ps ih =>
    intro cs r h
    cases cs with
    | nil => exact absurd h (by simp [stripPre])
    | cons c cs' =>
      unfold stripPre at h
      by_cases hc : c = p
      · rw [if_pos hc] at h
        rw [hc, List.cons_append, ih h]
      · rw [if_neg hc] at h
        exact absurd h (by simp)

lemma matchPair_at1 {r : List Char} {p : DecNum × DecNum} (h : matchPair r = some p) :
    matchAt1 ('@' :: r) = some p := by
  unfold matchAt1
  simp only [stripPre, if_pos rfl, Option.bind_eq_bind]
  show matchPair r = some p
  exact h

lemma matchAt4_structure {cs : List Char} {p : DecNum × DecNum} (h : matchAt4 cs = some p) :
    ∃ r, ('@' :: r) <:+ cs ∧ matchPair r = some p := by
  unfold matchAt4 at h
  cases hs : stripPre "/maps/place/".data cs with
  | none => rw [hs] at h; exact absurd h (by simp)
  | some r =>
    rw [hs] at h
    dsimp only [Option.bind_eq_bind, Option.some_bind] at h
    by_cases hseg : (r.takeWhile (fun c => c ≠ '/')).isEmpty
    · rw [if_pos hseg] at h
      exact absurd h (by simp)
    · rw [if_neg hseg] at h
      cases hs2 : stripPre ['/', '@'] (r.dropWhile (fun c => c ≠ '/')) with
      | none => rw [hs2] at h; exact absurd h (by simp)
      | some r3 =>
        rw [hs2] at h
        dsimp only [Option.some_bind] at h
        refine ⟨r3, ?_, h⟩
        have hdw : r.dropWhile (fun c => c ≠ '/') = '/' :: '@' :: r3 := stripPre_eq_append hs2
        have h1 : ('@' :: r3) <:+ ('/' :: '@' :: r3) := List.suffix_cons '/' _
        have h2 : (r.dropWhile (fun c => c ≠ '/')) <:+ r := List.dropWhile_suffix _
        have h3 : r <:+ cs := ⟨"/maps/place/".data, (stripPre_eq_append hs).symm⟩
        rw [hdw] at h2
        exact (h1.trans h2).trans h3

instance (ip fp : List Char) : Decidable (IsDecStr ip fp) :=
  inferInstanceAs (Decidable (ip ≠ [] ∧ fp ≠ [] ∧
    (∀ c ∈ ip, c.isDigit = true) ∧ (∀ c ∈ fp, c.isDigit = true)))

instance (name : List Char) : Decidable (GoodSeg name) :=
  inferInstanceAs (Decidable (name ≠ [] ∧ '/' ∉ name ∧ '@' ∉ name))

/-- C10: the pattern-4 branch of `extractCoordinates` is unreachable —
for every input URL, `extractCoordinates` agrees with the variant whose
`/maps/place/<name>/@lat,lng` branch is removed, because every string
matched by pattern 4 contains an `@lat,lng` occurrence that pattern 1
(tried first) already matches. -/
theorem extract_pattern4_redundant (url : List Char) :
    extractCoordinates url = extractCoordinatesNoP4 url := by
  unfold extractCoordinates extractCoordinatesNoP4
  cases hs1 : scan matchAt1 url with
  | some p => rfl
  | none =>
    have h4 : scan matchAt4 url = none := by
      cases h4s : scan matchAt4 url with
      | none => rfl
      | some p =>
        obtain ⟨t, ht, hft⟩ := scan_eq_some h4s
        obtain ⟨r, hsuf, hmp⟩ := matchAt4_structure hft
        have hnone := scan_eq_none_iff.mp hs1 ('@' :: r) (hsuf.trans ht)
        rw [matchPair_at1 hmp] at hnone
        exact absurd hnone (by simp)
    cases hs2 : scan matchAt2 url with
    | some p => rfl
    | none =>
      cases hs3 : scan matchAt3 url with
      | some p => rfl
      | none => rw [h4]

/-- C6: for every valid signed decimal latitude/longitude pair (nonempty
integer digits, at least one fractional digit) embedded in each of the
four supported URL shapes — `@lat,lng`, `q=lat,lng`, `!3d{lat}!4d{lng}`
and `/maps/place/<name>/@lat,lng` — `extractCoordinates` returns exactly
the embedded pair (the patterns are tried in the stated order and the
first success is returned; for shape 4 that first success is pattern 1,
which matches the same embedded pair). -/
theorem extract_four_shapes_exact (neg1 neg2 : Bool) (ip1 fp1 ip2 fp2 name : List Char)
    (h1 : IsDecStr ip1 fp1) (h2 : IsDecStr ip2 fp2) (hn : GoodSeg name) :
    extractCoordinates (mkUrl1 neg1 ip1 fp1 neg2 ip2 fp2) =
        .found (decOf neg1 ip1 fp1) (decOf neg2 ip2 fp2) ∧
      extractCoordinates (mkUrl2 neg1 ip1 fp1 neg2 ip2 fp2) =
        .found (decOf neg1 ip1 fp1) (decOf neg2 ip2 fp2) ∧
      extractCoordinates (mkUrl3 neg1 ip1 fp1 neg2 ip2 fp2) =
        .found (decOf neg1 ip1 fp1) (decOf neg2 ip2 fp2) ∧
      extractCoordinates (mkUrl4 name neg1 ip1 fp1 neg2 ip2 fp2) =
        .found (decOf neg1 ip1 fp1) (decOf neg2 ip2 fp2) :=
  ⟨extract_mkUrl1 h1 h2, extract_mkUrl2 h1 h2, extract_mkUrl3 h1 h2, extract_mkUrl4 hn h1 h2⟩

/-- Witness for C6 at the concrete pair 40.5 / -75.25 and name `Home`. -/
theorem extract_four_shapes_exact_witness :
    (IsDecStr ['4', '0'] ['5'] ∧ IsDecStr ['7', '5'] ['2', '5'] ∧ GoodSeg "Home".data) ∧
      (extractCoordinates (mkUrl1 false ['4', '0'] ['5'] true ['7', '5'] ['2', '5']) =
          .found (decOf false ['4', '0'] ['5']) (decOf true ['7', '5'] ['2', '5']) ∧
        extractCoordinates (mkUrl2 false ['4', '0'] ['5'] true ['7', '5'] ['2', '5']) =
          .found (decOf false ['4', '0'] ['5']) (decOf true ['7', '5'] ['2', '5']) ∧
        extractCoordinates (mkUrl3 false ['4', '0'] ['5'] true ['7', '5'] ['2', '5']) =
          .found (decOf false ['4', '0'] ['5']) (decOf true ['7', '5'] ['2', '5']) ∧
        extractCoordinates (mkUrl4 "Home".data false ['4', '0'] ['5'] true ['7', '5'] ['2', '5']) =
          .found (decOf false ['4', '0'] ['5']) (decOf true ['7', '5'] ['2', '5'])) :=
  ⟨⟨by decide, by decide, by decide⟩,
    extract_four_shapes_exact false true ['4', '0'] ['5'] ['7', '5'] ['2', '5'] "Home".data
      (by decide) (by decide) (by decide)⟩

/-! ## Coordinate ranges (C7) -/

/-- The spec's coordinate ranges: latitude in [-90, 90], longitude in
[-180, 180]. -/
def coordInRange (lat lng : DecNum) : Prop :=
  -90 ≤ lat.toRat ∧ lat.toRat ≤ 90 ∧ -180 ≤ lng.toRat ∧ lng.toRat ≤ 180

/-- Every successful extraction result lies in the coordinate ranges. -/
def resultInRange : ExtractResult → Prop
  | .found lat lng => coordInRange lat lng
  | _ => True

/-- C7 is false of the code: `extractCoordinates` performs no range
validation, so a URL embedding the out-of-range latitude 99.9 yields a
successful result whose latitude exceeds 90. -/
theorem extract_range_counterexample :
    ¬(∀ url lat lng, extractCoordinates url = .found lat lng → coordInRange lat lng) := by
  intro h
  have hx := h "@99.9,0.0".data ⟨999, 1⟩ ⟨0, 1⟩ (by decide)
  have h2 := hx.2.1
  norm_num [DecNum.toRat] at h2

/-- C7 (amended): `extractCoordinates` returns the embedded decimals
unvalidated, so a successful result lies within the ranges exactly when
the embedded pair does; in particular, whenever the embedded decimal pair
of any of the four supported URL shapes lies within latitude [-90, 90]
and longitude [-180, 180], the extraction result does too. -/
theorem extract_inRange_of_embedded_inRange (neg1 neg2 : Bool)
    (ip1 fp1 ip2 fp2 name : List Char)
    (h1 : IsDecStr ip1 fp1) (h2 : IsDecStr ip2 fp2) (hn : GoodSeg name)
    (hlat : -90 ≤ (decOf neg1 ip1 fp1).toRat ∧ (decOf neg1 ip1 fp1).toRat ≤ 90)
    (hlng : -180 ≤ (decOf neg2 ip2 fp2).toRat ∧ (decOf neg2 ip2 fp2).toRat ≤ 180) :
    resultInRange (extractCoordinates (mkUrl1 neg1 ip1 fp1 neg2 ip2 fp2)) ∧
      resultInRange (extractCoordinates (mkUrl2 neg1 ip1 fp1 neg2 ip2 fp2)) ∧
      resultInRange (extractCoordinates (mkUrl3 neg1 ip1 fp1 neg2 ip2 fp2)) ∧
      resultInRange (extractCoordinates (mkUrl4 name neg1 ip1 fp1 neg2 ip2 fp2)) := by
  have hr : coordInRange (decOf neg1 ip1 fp1) (decOf neg2 ip2 fp2) :=
    ⟨hlat.1, hlat.2, hlng.1, hlng.2⟩
  refine ⟨?_, ?_, ?_, ?_⟩
  · rw [extract_mkUrl1 h1 h2]; exact hr
  · rw [extract_mkUrl2 h1 h2]; exact hr
  · rw [extract_mkUrl3 h1 h2]; exact hr
  · rw [extract_mkUrl4 hn h1 h2]; exact hr

/-- Witness for the amended C7 at the embedded pair 40.5 / -75.25. -/
theorem extract_inRange_of_embedded_inRange_witness :
    ((IsDecStr ['4', '0'] ['5'] ∧ IsDecStr ['7', '5'] ['2', '5'] ∧ GoodSeg "Park".data) ∧
      (-90 ≤ (decOf false ['4', '0'] ['5']).toRat ∧ (decOf false ['4', '0'] ['5']).toRat ≤ 90) ∧
      (-180 ≤ (decOf true ['7', '5'] ['2', '5']).toRat ∧
        (decOf true ['7', '5'] ['2', '5']).toRat ≤ 180)) ∧
      (resultInRange (extractCoordinates (mkUrl1 false ['4', '0'] ['5'] true ['7', '5'] ['2', '5'])) ∧
        resultInRange (extractCoordinates (mkUrl2 false ['4', '0'] ['5'] true ['7', '5'] ['2', '5'])) ∧
        resultInRange (extractCoordinates (mkUrl3 false ['4', '0'] ['5'] true ['7', '5'] ['2', '5'])) ∧
        resultInRange (extractCoordinates
          (mkUrl4 "Park".data false ['4', '0'] ['5'] true ['7', '5'] ['2', '5']))) := by
  have hd1 : decOf false ['4', '0'] ['5'] = ⟨405, 1⟩ := by decide
  have hd2 : decOf true ['7', '5'] ['2', '5'] = ⟨-7525, 2⟩ := by decide
  have hlat : -90 ≤ (decOf false ['4', '0'] ['5']).toRat ∧
      (decOf false ['4', '0'] ['5']).toRat ≤ 90 := by
    rw [hd1]; norm_num [DecNum.toRat]
  have hlng : -180 ≤ (decOf true ['7', '5'] ['2', '5']).toRat ∧
      (decOf true ['7', '5'] ['2', '5']).toRat ≤ 180 := by
    rw [hd2]; norm_num [DecNum.toRat]
  exact ⟨⟨⟨by decide, by decide, by decide⟩, hlat, hlng⟩,
    extract_inRange_of_embedded_inRange false true ['4', '0'] ['5'] ['7', '5'] ['2', '5']
      "Park".data (by decide) (by decide) (by decide) hlat hlng⟩

/-! ## Task store: addTask (App.jsx lines 132-157) -/

/-- The task record built by `addTask`.  `lat`/`lng` are `Option` because
JavaScript property access `coords.lat` on the string `'SHORT_URL'`
evaluates to `undefined`. -/
structure StoredTask where
  id : ℕ
  name : List Char
  location : List Char
  lat : Option DecNum
  lng : Option DecNum
  mapsUrl : List Char
deriving DecidableEq, Repr

/-- `coords.lat`: the field on a coordinate object, `undefined` on the
string `'SHORT_URL'` (and unreachable on `null`). -/
def ExtractResult.latField : ExtractResult → Option DecNum
  | .found lat _ => some lat
  | _ => none

/-- `coords.lng`: the field on a coordinate object, `undefined` on the
string `'SHORT_URL'` (and unreachable on `null`). -/
def ExtractResult.lngField : ExtractResult → Option DecNum
  | .found _ lng => some lng
  | _ => none

/-- `addTask` (App.jsx lines 132-157).  JavaScript truthiness is modelled
exactly: `if (!taskName || !locationName || !googleMapsUrl)` rejects empty
strings; `if (!coords)` rejects only `null` — the truthy string
`'SHORT_URL'` passes the check and a task with `undefined` coordinates is
appended.  `Date.now()` is the explicit `now` argument; the second
component is the `alert` message, if any. -/
def addTask (taskName locationName googleMapsUrl : List Char)
    (tasks : List StoredTask) (now : ℕ) : List StoredTask × Option (List Char) :=
  if taskName = [] ∨ locationName = [] ∨ googleMapsUrl = [] then
    (tasks, some "Please fill in all fields".data)
  else
    let coords := extractCoordinates googleMapsUrl
    if coords = .unparseable then
      (tasks, some ("Could not extract coordinates from Google Maps URL. " ++
        "Please make sure you copied the full URL from Google Maps.").data)
    else
      (tasks ++ [⟨now, taskName, locationName, coords.latField, coords.lngField,
        googleMapsUrl⟩], none)

/-- C1: contrary to the claim, a short-link URL does create a task.
`addTask` leaves the task list unchanged when a field is missing or the
URL is unparseable, but on a `goo.gl` short link `extractCoordinates`
returns the truthy string `'SHORT_URL'`, `if (!coords)` does not fire,
and a task with `undefined` coordinates is appended. -/
theorem addTask_shortlink_creates_task :
    (addTask [] "Store".data "https://maps.app.goo.gl/abc".data [] 0).1 = [] ∧
      (addTask "Buy drill".data "Store".data "no coordinates here".data [] 0).1 = [] ∧
      (addTask "Buy drill".data "Store".data "https://maps.app.goo.gl/abc".data [] 0).1 =
        [⟨0, "Buy drill".data, "Store".data, none, none,
          "https://maps.app.goo.gl/abc".data⟩] := by
  refine ⟨by decide, by decide, by decide⟩

/-! ## DistanceCalculator (App.jsx lines 81-94) -/

/-- `Math.atan2` with its standard real-number semantics. -/
noncomputable def atan2 (y x : ℝ) : ℝ :=
  if 0 < x then Real.arctan (y / x)
  else if x < 0 then
    (if 0 ≤ y then Real.arctan (y / x) + Real.pi else Real.arctan (y / x) - Real.pi)
  else
    (if 0 < y then Real.pi / 2 else if y < 0 then -(Real.pi / 2) else 0)

/-- The intermediate value `a` of the haversine formula (App.jsx lines
88-90), written with the source's `sin·sin` products. -/
noncomputable def haversineA (lat1 lon1 lat2 lon2 : ℝ) : ℝ :=
  Real.sin ((lat2 - lat1) * Real.pi / 180 / 2) *
      Real.sin ((lat2 - lat1) * Real.pi / 180 / 2) +
    Real.cos (lat1 * Real.pi / 180) * Real.cos (lat2 * Real.pi / 180) *
      (Real.sin ((lon2 - lon1) * Real.pi / 180 / 2) *
        Real.sin ((lon2 - lon1) * Real.pi / 180 / 2))

/-- `calculateDistance` (App.jsx lines 81-94): haversine distance with
mean Earth radius 6371e3 meters, `c = 2 * atan2(sqrt(a), sqrt(1-a))`. -/
noncomputable def calculateDistance (lat1 lon1 lat2 lon2 : ℝ) : ℝ :=
  6371000 * (2 * atan2 (Real.sqrt (haversineA lat1 lon1 lat2 lon2))
    (Real.sqrt (1 - haversineA lat1 lon1 lat2 lon2)))

lemma haversineA_symm (lat1 lon1 lat2 lon2 : ℝ) :
    haversineA lat1 lon1 lat2 lon2 = haversineA lat2 lon2 lat1 lon1 := by
  unfold haversineA
  have h : ∀ a b : ℝ, Real.sin ((a - b) * Real.pi / 180 / 2) *
      Real.sin ((a - b) * Real.pi / 180 / 2) =
      Real.sin ((b - a) * Real.pi / 180 / 2) * Real.sin ((b - a) * Real.pi / 180 / 2) := by
    intro a b
    have hrw : (a - b) * Real.pi / 180 / 2 = -((b - a) * Real.pi / 180 / 2) := by ring
    rw [hrw, Real.sin_neg]
    ring
  rw [h lat2 lat1, h lon2 lon1]
  ring

lemma haversineA_self (lat lon : ℝ) : haversineA lat lon lat lon = 0 := by
  unfold haversineA
  have h : (lat - lat) * Real.pi / 180 / 2 = 0 := by ring
  have h2 : (lon - lon) * Real.pi / 180 / 2 = 0 := by ring
  rw [h, h2, Real.sin_zero]
  ring

lemma calculateDistance_of_A_eq_zero {lat1 lon1 lat2 lon2 : ℝ}
    (h : haversineA lat1 lon1 lat2 lon2 = 0) : calculateDistance lat1 lon1 lat2 lon2 = 0 := by
  unfold calculateDistance
  rw [h]
  have h1 : Real.sqrt 0 = 0 := Real.sqrt_zero
  have h2 : Real.sqrt (1 - 0) = 1 := by norm_num [Real.sqrt_one]
  rw [h1, h2]
  have h3 : atan2 0 1 = 0 := by
    unfold atan2
    rw [if_pos one_pos]
    norm_num [Real.arctan_zero]
  rw [h3]
  ring

lemma calculateDistance_self (lat lon : ℝ) : calculateDistance lat lon lat lon = 0 :=
  calculateDistance_of_A_eq_zero (haversineA_self lat lon)

lemma calculateDistance_symm (lat1 lon1 lat2 lon2 : ℝ) :
    calculateDistance lat1 lon1 lat2 lon2 = calculateDistance lat2 lon2 lat1 lon1 := by
  unfold calculateDistance
  rw [haversineA_symm]

/-- C5 is half false of the code: symmetry holds, but distance zero does
not imply equal coordinate pairs — the two writings (0,-180) and (0,180)
of the same antimeridian point are distinct pairs at distance 0. -/
theorem calculateDistance_zero_iff_counterexample :
    calculateDistance 0 (-180) 0 180 = 0 ∧ ¬(((0:ℝ), (-180:ℝ)) = ((0:ℝ), (180:ℝ))) := by
  constructor
  · apply calculateDistance_of_A_eq_zero
    unfold haversineA
    have h1 : ((0:ℝ) - 0) * Real.pi / 180 / 2 = 0 := by ring
    have h2 : ((180:ℝ) - (-180)) * Real.pi / 180 / 2 = Real.pi := by ring
    have h3 : (0:ℝ) * Real.pi / 180 = 0 := by ring
    rw [h1, h2, h3, Real.sin_zero, Real.sin_pi, Real.cos_zero]
    ring
  · intro h
    have h2 : (-180:ℝ) = 180 := congrArg Prod.snd h
    norm_num at h2

/-- C5 (amended): `calculateDistance` is symmetric and vanishes on equal
coordinate pairs; the converse (zero only on equal pairs) fails, since
distinct coordinate pairs can denote the same point (see the
antimeridian counterexample). -/
theorem calculateDistance_symm_and_self_zero (lat1 lon1 lat2 lon2 : ℝ) :
    calculateDistance lat1 lon1 lat2 lon2 = calculateDistance lat2 lon2 lat1 lon1 ∧
      calculateDistance lat1 lon1 lat1 lon1 = 0 :=
  ⟨calculateDistance_symm lat1 lon1 lat2 lon2, calculateDistance_self lat1 lon1⟩

/-! ## ProximityEngine (App.jsx lines 97-130)

The task record and the proximity pass live in the `Reminder` namespace
because `Task` collides with a core Lean name. -/

namespace Reminder

/-- A latitude/longitude pair as delivered by the location stream. -/
structure Coord where
  lat : ℝ
  lng : ℝ

/-- A tracked task as held in the `tasks` React state. -/
structure Task where
  id : ℕ
  name : String
  location : String
  lat : ℝ
  lng : ℝ
  mapsUrl : String

/-- A notification record `{ id: Date.now(), text }` (App.jsx lines
110-111). -/
structure Notif where
  id : ℕ
  text : String
deriving DecidableEq, Repr

/-- The notification text template of App.jsx line 110:
`📍 Nearby reminder: ${task.name} at ${task.location}`. -/
def notifText (t : Task) : String :=
  "📍 Nearby reminder: " ++ t.name ++ " at " ++ t.location

/-- One iteration of the `tasks.forEach` body of `checkProximity`
(App.jsx lines 100-129).  The membership test reads `prior` (the
render-time `notifiedTasks` snapshot, as the stale closure does), while
the accumulator chains the queued `setNotifications`/`setNotifiedTasks`
functional updates. -/
noncomputable def proxStep (distTo : Task → ℝ) (prior : Finset ℕ) (now : ℕ)
    (acc : List Notif × Finset ℕ) (task : Task) : List Notif × Finset ℕ :=
  if distTo task ≤ 1609 ∧ task.id ∉ prior then
    (acc.1 ++ [⟨now, notifText task⟩], insert task.id acc.2)
  else if distTo task > 1609 * 2 then
    (acc.1, acc.2.erase task.id)
  else acc

/-- `checkProximity` over an abstract per-task distance, returning the
newly appended notifications and the updated `notifiedTasks` set. -/
noncomputable def checkProximityCore (distTo : Task → ℝ) (tasks : List Task)
    (prior : Finset ℕ) (now : ℕ) : List Notif × Finset ℕ :=
  tasks.foldl (proxStep distTo prior now) ([], prior)

/-- `checkProximity` (App.jsx lines 97-130): the proximity threshold is
1609 m, the reset threshold `proximityThreshold * 2`; distances come from
`calculateDistance` against the current location. -/
noncomputable def checkProximity (currentLocation : Coord) (tasks : List Task)
    (prior : Finset ℕ) (now : ℕ) : List Notif × Finset ℕ :=
  checkProximityCore
    (fun task => calculateDistance currentLocation.lat currentLocation.lng task.lat task.lng)
    tasks prior now

/-- `deleteTask` (App.jsx lines 159-166): drop the task and erase its
identifier from `notifiedTasks`. -/
def deleteTask (i : ℕ) (tasks : List Task) (notified : Finset ℕ) :
    List Task × Finset ℕ :=
  (tasks.filter fun task => task.id ≠ i, notified.erase i)

/-- The set of identifiers of the tasks in a list. -/
def taskIds (tasks : List Task) : Finset ℕ := (tasks.map Task.id).toFinset

/-- The state component of one `forEach` iteration. -/
noncomputable def stateStep (distTo : Task → ℝ) (prior : Finset ℕ)
    (s : Finset ℕ) (task : Task) : Finset ℕ :=
  if distTo task ≤ 1609 ∧ task.id ∉ prior then insert task.id s
  else if distTo task > 1609 * 2 then s.erase task.id
  else s

lemma proxStep_snd (distTo : Task → ℝ) (prior : Finset ℕ) (now : ℕ)
    (acc : List Notif × Finset ℕ) (t : Task) :
    (proxStep distTo prior now acc t).2 = stateStep distTo prior acc.2 t := by
  unfold proxStep stateStep
  by_cases h1 : distTo t ≤ 1609 ∧ t.id ∉ prior
  · rw [if_pos h1, if_pos h1]
  · rw [if_neg h1, if_neg h1]
    by_cases h2 : distTo t > 1609 * 2
    · rw [if_pos h2, if_pos h2]
    · rw [if_neg h2, if_neg h2]

lemma foldl_proxStep_snd (distTo : Task → ℝ) (prior : Finset ℕ) (now : ℕ) :
    ∀ (tasks : List Task) (acc : List Notif × Finset ℕ),
      (tasks.foldl (proxStep distTo prior now) acc).2 =
        tasks.foldl (stateStep distTo prior) acc.2 := by
  intro tasks
  induction tasks with
  | nil => intro acc; rfl
  | cons t ts ih =>
    intro acc
    rw [List.foldl_cons, List.foldl_cons, ih, proxStep_snd]

lemma checkProximityCore_snd (distTo : Task → ℝ) (tasks : List Task)
    (prior : Finset ℕ) (now : ℕ) :
    (checkProximityCore distTo tasks prior now).2 =
      tasks.foldl (stateStep distTo prior) prior := by
  unfold checkProximityCore
  rw [foldl_proxStep_snd]

lemma foldl_proxStep_fst (distTo : Task → ℝ) (prior : Finset ℕ) (now : ℕ) :
    ∀ (tasks : List Task) (acc : List Notif × Finset ℕ),
      (tasks.foldl (proxStep distTo prior now) acc).1 =
        acc.1 ++ (tasks.filter fun t => decide (distTo t ≤ 1609 ∧ t.id ∉ prior)).map
          (fun t => ⟨now, notifText t⟩) := by
  intro tasks
  induction tasks with
  | nil => intro acc; simp
  | cons t ts ih =>
    intro acc
    rw [List.foldl_cons, ih]
    by_cases h1 : distTo t ≤ 1609 ∧ t.id ∉ prior
    · have hstep : (proxStep distTo prior now acc t).1 = acc.1 ++ [⟨now, notifText t⟩] := by
        unfold proxStep
        rw [if_pos h1]
      rw [hstep, List.filter_cons_of_pos (by simpa using h1), List.map_cons,
        List.append_assoc]
      rfl
    · have hstep : (proxStep distTo prior now acc t).1 = acc.1 := by
        unfold proxStep
        rw [if_neg h1]
        by_cases h2 : distTo t > 1609 * 2
        · rw [if_pos h2]
        · rw [if_neg h2]
      rw [hstep, List.filter_cons_of_neg (by simpa using h1)]

/-- The alerts of one pass are exactly one alert per task that is within
1609 m and not yet in the prior notification set, in task order. -/
lemma checkProximityCore_fst (distTo : Task → ℝ) (tasks : List Task)
    (prior : Finset ℕ) (now : ℕ) :
    (checkProximityCore distTo tasks prior now).1 =
      (tasks.filter fun t => decide (distTo t ≤ 1609 ∧ t.id ∉ prior)).map
        (fun t => ⟨now, notifText t⟩) := by
  unfold checkProximityCore
  rw [foldl_proxStep_fst]
  rfl

end Reminder

namespace Reminder

lemma stateStep_mem_of_ne {distTo : Task → ℝ} {prior s : Finset ℕ} {t : Task} {x : ℕ}
    (hx : t.id ≠ x) : (x ∈ stateStep distTo prior s t ↔ x ∈ s) := by
  unfold stateStep
  by_cases h1 : distTo t ≤ 1609 ∧ t.id ∉ prior
  · rw [if_pos h1, Finset.mem_insert]
    exact ⟨fun h => h.resolve_left fun he => hx he.symm, Or.inr⟩
  · rw [if_neg h1]
    by_cases h2 : distTo t > 1609 * 2
    · rw [if_pos h2, Finset.mem_erase]
      exact ⟨And.right, fun h => ⟨fun he => hx he.symm, h⟩⟩
    · rw [if_neg h2]

lemma mem_foldl_stateStep (distTo : Task → ℝ) (prior : Finset ℕ) :
    ∀ (tasks : List Task) (s : Finset ℕ) (x : ℕ), (tasks.map Task.id).Nodup →
      (x ∈ tasks.foldl (stateStep distTo prior) s ↔
        (∃ t ∈ tasks, t.id = x ∧ distTo t ≤ 1609 ∧ t.id ∉ prior) ∨
          (x ∈ s ∧ ¬∃ t ∈ tasks, t.id = x ∧ distTo t > 1609 * 2)) := by
  intro tasks
  induction tasks with
  | nil => intro s x _; simp
  | cons t ts ih =>
    intro s x hnd
    rw [List.map_cons, List.nodup_cons] at hnd
    rw [List.foldl_cons, ih _ x hnd.2]
    by_cases hx : t.id = x
    · subst hx
      have hnone : ∀ (Q : Task → Prop), ¬∃ u, u ∈ ts ∧ (u.id = t.id ∧ Q u) := by
        rintro Q ⟨u, hu, he, _⟩
        exact hnd.1 (he ▸ List.mem_map_of_mem Task.id hu)
      have h1 : ¬∃ u ∈ ts, u.id = t.id ∧ distTo u ≤ 1609 ∧ u.id ∉ prior := hnone _
      have h2 : ¬∃ u ∈ ts, u.id = t.id ∧ distTo u > 1609 * 2 := hnone _
      simp only [List.mem_cons, exists_eq_or_imp]
      constructor
      · rintro (⟨u, hu, he, hq⟩ | ⟨hmem, hnf⟩)
        · exact absurd ⟨u, hu, he, hq⟩ h1
        · unfold stateStep at hmem
          by_cases hnear : distTo t ≤ 1609 ∧ t.id ∉ prior
          · exact Or.inl (Or.inl ⟨trivial, hnear⟩)
          · rw [if_neg hnear] at hmem
            by_cases hfar : distTo t > 1609 * 2
            · rw [if_pos hfar] at hmem
              exact absurd hmem (Finset.not_mem_erase _ _)
            · rw [if_neg hfar] at hmem
              refine Or.inr ⟨hmem, ?_⟩
              rintro (⟨-, hfar2⟩ | hex)
              · exact hfar hfar2
              · exact h2 hex
      · rintro ((⟨-, hnear⟩ | hex) | ⟨hmem, hnf⟩)
        · refine Or.inr ⟨?_, ?_⟩
          · unfold stateStep
            rw [if_pos hnear]
            exact Finset.mem_insert_self _ _
          · exact h2
        · exact absurd hex h1
        · have hnft : ¬(distTo t > 1609 * 2) := fun hfar => hnf (Or.inl ⟨trivial, hfar⟩)
          refine Or.inr ⟨?_, h2⟩
          unfold stateStep
          by_cases hnear : distTo t ≤ 1609 ∧ t.id ∉ prior
          · rw [if_pos hnear]
            exact Finset.mem_insert_self _ _
          · rw [if_neg hnear, if_neg hnft]
            exact hmem
    · have hmem : x ∈ stateStep distTo prior s t ↔ x ∈ s := stateStep_mem_of_ne hx
      simp only [List.mem_cons, exists_eq_or_imp, hmem]
      constructor
      · rintro (hex | ⟨hs, hnf⟩)
        · exact Or.inl (Or.inr hex)
        · refine Or.inr ⟨hs, ?_⟩
          rintro (⟨he, -⟩ | hex2)
          · exact hx he
          · exact hnf hex2
      · rintro ((⟨he, -⟩ | hex) | ⟨hs, hnf⟩)
        · exact absurd he hx
        · exact Or.inl hex
        · exact Or.inr ⟨hs, fun hex2 => hnf (Or.inr hex2)⟩

end Reminder

namespace Reminder

lemma id_unique {tasks : List Task} (hnd : (tasks.map Task.id).Nodup) :
    ∀ t ∈ tasks, ∀ u ∈ tasks, u.id = t.id → u = t := by
  have hp : tasks.Pairwise (fun a b => a.id ≠ b.id) := List.pairwise_map.mp hnd
  intro t ht u hu he
  by_contra hne
  have hsym : Symmetric (fun (a b : Task) => a.id ≠ b.id) := by
    intro a b h he2
    exact h he2.symm
  exact hp.forall hsym hu ht hne he

lemma core_idempotent (distTo : Task → ℝ) (tasks : List Task) (prior : Finset ℕ)
    (now now' : ℕ) (hnd : (tasks.map Task.id).Nodup) :
    (checkProximityCore distTo tasks
        ((checkProximityCore distTo tasks prior now).2) now').1 = [] ∧
      (checkProximityCore distTo tasks
          ((checkProximityCore distTo tasks prior now).2) now').2 =
        (checkProximityCore distTo tasks prior now).2 := by
  have hS1mem : ∀ x, x ∈ (checkProximityCore distTo tasks prior now).2 ↔
      (∃ t ∈ tasks, t.id = x ∧ distTo t ≤ 1609 ∧ t.id ∉ prior) ∨
        (x ∈ prior ∧ ¬∃ t ∈ tasks, t.id = x ∧ distTo t > 1609 * 2) := by
    intro x
    rw [checkProximityCore_snd]
    exact mem_foldl_stateStep _ _ _ _ _ hnd
  have hin : ∀ t ∈ tasks, distTo t ≤ 1609 →
      t.id ∈ (checkProximityCore distTo tasks prior now).2 := by
    intro t ht hle
    rw [hS1mem]
    by_cases hp : t.id ∈ prior
    · refine Or.inr ⟨hp, ?_⟩
      rintro ⟨u, hu, he, hfar⟩
      have hu_eq : u = t := id_unique hnd t ht u hu he
      rw [hu_eq] at hfar
      linarith
    · exact Or.inl ⟨t, ht, rfl, hle, hp⟩
  constructor
  · rw [checkProximityCore_fst]
    have hfe : (tasks.filter fun t =>
        decide (distTo t ≤ 1609 ∧ t.id ∉ (checkProximityCore distTo tasks prior now).2)) = [] := by
      rw [List.filter_eq_nil_iff]
      intro t ht
      simp only [decide_eq_true_eq, not_and, not_not]
      intro hle
      exact hin t ht hle
    rw [hfe]
    rfl
  · apply Finset.ext
    intro x
    rw [checkProximityCore_snd distTo tasks ((checkProximityCore distTo tasks prior now).2) now',
      mem_foldl_stateStep _ _ _ _ _ hnd]
    constructor
    · rintro (⟨t, ht, he, hle, hnotin⟩ | ⟨hmem, -⟩)
      · exact absurd (hin t ht hle) hnotin
      · exact hmem
    · intro hx
      refine Or.inr ⟨hx, ?_⟩
      rintro ⟨u, hu, he, hfar⟩
      rw [hS1mem] at hx
      rcases hx with ⟨w, hw, hwe, hwle, -⟩ | ⟨-, hnf⟩
      · have huw : u = w := id_unique hnd w hw u hu (by rw [he, hwe])
        rw [huw] at hfar
        linarith
      · exact hnf ⟨u, hu, he, hfar⟩

end Reminder

/-! ## A concrete far distance: equator to pole -/

lemma haversineA_equator_pole : haversineA 0 0 90 0 = 1 / 2 := by
  unfold haversineA
  have h90 : ((90:ℝ) - 0) * Real.pi / 180 / 2 = Real.pi / 4 := by ring
  have h0 : ((0:ℝ) - 0) * Real.pi / 180 / 2 = 0 := by ring
  rw [h90, h0, Real.sin_pi_div_four, Real.sin_zero]
  have h2 : Real.sqrt 2 / 2 * (Real.sqrt 2 / 2) = 1 / 2 := by
    rw [div_mul_div_comm, Real.mul_self_sqrt (by norm_num : (0:ℝ) ≤ 2)]
    norm_num
  rw [h2]
  ring

lemma calculateDistance_equator_pole :
    calculateDistance 0 0 90 0 = 6371000 * (Real.pi / 2) := by
  unfold calculateDistance
  rw [haversineA_equator_pole]
  have h1 : (1:ℝ) - 1 / 2 = 1 / 2 := by norm_num
  rw [h1]
  have hpos : 0 < Real.sqrt (1 / 2) := Real.sqrt_pos.mpr (by norm_num)
  have hat : atan2 (Real.sqrt (1 / 2)) (Real.sqrt (1 / 2)) = Real.pi / 4 := by
    unfold atan2
    rw [if_pos hpos, div_self (ne_of_gt hpos), Real.arctan_one]
  rw [hat]
  ring

lemma calculateDistance_equator_pole_far : calculateDistance 0 0 90 0 > 1609 * 2 := by
  rw [calculateDistance_equator_pole]
  nlinarith [Real.pi_gt_three]

namespace Reminder

lemma core_singleton (d : ℝ) (t : Task) (s : Finset ℕ) (now : ℕ) :
    checkProximityCore (fun _ => d) [t] s now = proxStep (fun _ => d) s now ([], s) t := by
  unfold checkProximityCore
  rw [List.foldl_cons, List.foldl_nil]

/-- C3 is false of the code as universally stated: with two tasks sharing
one identifier (one within 1609 m, one beyond 3218 m), the far task
erases the suppression entry the near task just created, so repeating the
identical update emits a fresh alert. -/
theorem checkProximity_idempotent_counterexample :
    (checkProximity ⟨0, 0⟩ [⟨5, "a", "a", 0, 0, "u"⟩, ⟨5, "b", "b", 90, 0, "u"⟩]
        ((checkProximity ⟨0, 0⟩ [⟨5, "a", "a", 0, 0, "u"⟩, ⟨5, "b", "b", 90, 0, "u"⟩]
          ∅ 0).2) 1).1 ≠ [] := by
  have hnear : calculateDistance 0 0 (0:ℝ) (0:ℝ) ≤ 1609 := by
    rw [calculateDistance_self]
    norm_num
  have hfarne : ¬(calculateDistance 0 0 (90:ℝ) (0:ℝ) ≤ 1609) := by
    have := calculateDistance_equator_pole_far
    intro hle
    linarith
  have hS1 : (checkProximity ⟨0, 0⟩ [⟨5, "a", "a", 0, 0, "u"⟩, ⟨5, "b", "b", 90, 0, "u"⟩]
      ∅ 0).2 = ∅ := by
    unfold checkProximity
    rw [checkProximityCore_snd]
    rw [List.foldl_cons, List.foldl_cons, List.foldl_nil]
    have h1 : stateStep
        (fun task => calculateDistance (Coord.mk 0 0).lat (Coord.mk 0 0).lng task.lat task.lng)
        ∅ ∅ (⟨5, "a", "a", 0, 0, "u"⟩ : Task) = insert 5 ∅ := by
      unfold stateStep
      rw [if_pos ⟨hnear, Finset.not_mem_empty _⟩]
    have h2 : stateStep
        (fun task => calculateDistance (Coord.mk 0 0).lat (Coord.mk 0 0).lng task.lat task.lng)
        ∅ (insert 5 ∅) (⟨5, "b", "b", 90, 0, "u"⟩ : Task) = ∅ := by
      unfold stateStep
      rw [if_neg (fun hc => hfarne hc.1), if_pos calculateDistance_equator_pole_far]
      exact Finset.erase_insert (Finset.not_mem_empty 5)
    rw [h1, h2]
  rw [hS1]
  unfold checkProximity
  rw [checkProximityCore_fst]
  rw [List.filter_cons_of_pos (by
    rw [decide_eq_true_eq]
    exact ⟨hnear, Finset.not_mem_empty _⟩)]
  simp

/-- C3 (amended): for task lists with pairwise-distinct identifiers — the
data model's invariant — the proximity evaluation is idempotent: applying
the same location update again, starting from the notification state the
first application produced, emits no alerts and returns that state
unchanged. -/
theorem checkProximity_idempotent (cur : Coord) (tasks : List Task) (prior : Finset ℕ)
    (now now' : ℕ) (hnd : (tasks.map Task.id).Nodup) :
    (checkProximity cur tasks ((checkProximity cur tasks prior now).2) now').1 = [] ∧
      (checkProximity cur tasks ((checkProximity cur tasks prior now).2) now').2 =
        (checkProximity cur tasks prior now).2 :=
  core_idempotent _ tasks prior now now' hnd

/-- Witness for the amended C3: one task at the user's own position. -/
theorem checkProximity_idempotent_witness :
    (([(⟨1, "milk", "shop", 0, 0, "u"⟩ : Task)].map Task.id).Nodup) ∧
      ((checkProximity ⟨0, 0⟩ [⟨1, "milk", "shop", 0, 0, "u"⟩]
          ((checkProximity ⟨0, 0⟩ [⟨1, "milk", "shop", 0, 0, "u"⟩] ∅ 3).2) 4).1 = [] ∧
        (checkProximity ⟨0, 0⟩ [⟨1, "milk", "shop", 0, 0, "u"⟩]
            ((checkProximity ⟨0, 0⟩ [⟨1, "milk", "shop", 0, 0, "u"⟩] ∅ 3).2) 4).2 =
          (checkProximity ⟨0, 0⟩ [⟨1, "milk", "shop", 0, 0, "u"⟩] ∅ 3).2) :=
  ⟨by simp, checkProximity_idempotent ⟨0, 0⟩ _ ∅ 3 4 (by simp)⟩

end Reminder

namespace Reminder

/-- C4 is false of the code as stated: the alert record's `id` field is
`Date.now()`, hidden state outside the declared inputs, so two runs on
identical current location, task list and prior notification set — made
at different times — produce different alert records. -/
theorem checkProximity_timestamp_counterexample :
    checkProximity ⟨0, 0⟩ [⟨1, "a", "b", 0, 0, "u"⟩] ∅ 0 ≠
      checkProximity ⟨0, 0⟩ [⟨1, "a", "b", 0, 0, "u"⟩] ∅ 1 := by
  intro h
  have h1 := congrArg Prod.fst h
  unfold checkProximity at h1
  rw [checkProximityCore_fst, checkProximityCore_fst] at h1
  have hd : calculateDistance (0:ℝ) 0 0 0 = 0 := calculateDistance_self 0 0
  have hle : (0:ℝ) ≤ 1609 := by norm_num
  simp [hd, hle] at h1

/-- C4 (amended): `checkProximity` is deterministic in everything except
the alert identifiers: on identical current location, task list and prior
notification set, the alert texts (hence count, order and triggering
tasks) and the updated notification set are identical across runs; only
the `id` fields vary with the `Date.now()` timestamp, and coincide when
the timestamp does. -/
theorem checkProximity_deterministic (cur : Coord) (tasks : List Task) (prior : Finset ℕ)
    (now now' : ℕ) :
    (checkProximity cur tasks prior now).1.map Notif.text =
        (checkProximity cur tasks prior now').1.map Notif.text ∧
      (checkProximity cur tasks prior now).2 = (checkProximity cur tasks prior now').2 := by
  constructor
  · unfold checkProximity
    rw [checkProximityCore_fst, checkProximityCore_fst, List.map_map, List.map_map]
    rfl
  · unfold checkProximity
    rw [checkProximityCore_snd, checkProximityCore_snd]

/-- C8 is false of the code as stated: the emitted text is the template
with a leading pin emoji and space, `📍 Nearby reminder: {name} at
{location}`, not exactly `Nearby reminder: {name} at {location}`. -/
theorem notification_text_counterexample :
    (checkProximity ⟨0, 0⟩ [⟨1, "Buy drill", "Home Depot", 0, 0, "u"⟩] ∅ 7).1 =
        [⟨7, "📍 Nearby reminder: Buy drill at Home Depot"⟩] ∧
      "📍 Nearby reminder: Buy drill at Home Depot" ≠
        "Nearby reminder: Buy drill at Home Depot" := by
  constructor
  · unfold checkProximity
    rw [checkProximityCore_fst]
    rw [List.filter_cons_of_pos (by
      rw [decide_eq_true_eq]
      refine ⟨?_, Finset.not_mem_empty _⟩
      show calculateDistance 0 0 0 0 ≤ 1609
      rw [calculateDistance_self]
      norm_num)]
    rfl
  · decide

/-- C8 (amended): each qualifying proximity event (task within 1609 m
whose identifier is not in the prior notification set) yields exactly one
alert whose text is `📍 Nearby reminder: {task.name} at {task.location}`
— the spec's template preceded by a pin emoji and a space — and no other
alerts are emitted. -/
theorem notification_text_format (cur : Coord) (tasks : List Task) (prior : Finset ℕ)
    (now : ℕ) :
    (checkProximity cur tasks prior now).1 =
      (tasks.filter fun t =>
          decide (calculateDistance cur.lat cur.lng t.lat t.lng ≤ 1609 ∧ t.id ∉ prior)).map
        (fun t => ⟨now, "📍 Nearby reminder: " ++ t.name ++ " at " ++ t.location⟩) := by
  unfold checkProximity
  rw [checkProximityCore_fst]
  rfl

end Reminder


namespace Reminder

/-- A sequence of location updates at given distances from every task:
each update runs one `checkProximity` pass over the task list with that
distance, feeding the updated notification state into the next pass;
returns the per-update alert lists and the final state. -/
noncomputable def runUpdates (ds : List ℝ) (tasks : List Task) (s : Finset ℕ) (now : ℕ) :
    List (List Notif) × Finset ℕ :=
  match ds with
  | [] => ([], s)
  | d :: rest =>
    let r := checkProximityCore (fun _ => d) tasks s now
    let r2 := runUpdates rest tasks r.2 now
    (r.1 :: r2.1, r2.2)

/-- C2: for a single task starting `ARMED` (identifier absent from the
notification-state set), the update sequence at distances 2000 m, 1000 m,
1500 m, 3500 m, 1000 m from the task produces alert counts 0, 1, 0, 0, 1
— exactly two alerts, one on each step at 1000 m and none elsewhere
(thresholds 1609 m and 1609·2 m). -/
theorem checkProximity_hysteresis (t : Task) (s0 : Finset ℕ) (now : ℕ) (h : t.id ∉ s0) :
    ((runUpdates [2000, 1000, 1500, 3500, 1000] [t] s0 now).1.map List.length) =
      [0, 1, 0, 0, 1] := by
  have h1 : checkProximityCore (fun _ => (2000:ℝ)) [t] s0 now = ([], s0) := by
    rw [core_singleton]
    unfold proxStep
    rw [if_neg (fun hc => absurd hc.1 (by norm_num)), if_neg (by norm_num)]
  have h2 : checkProximityCore (fun _ => (1000:ℝ)) [t] s0 now =
      ([⟨now, notifText t⟩], insert t.id s0) := by
    rw [core_singleton]
    unfold proxStep
    rw [if_pos ⟨by norm_num, h⟩]
    rfl
  have h3 : checkProximityCore (fun _ => (1500:ℝ)) [t] (insert t.id s0) now =
      ([], insert t.id s0) := by
    rw [core_singleton]
    unfold proxStep
    rw [if_neg (fun hc => hc.2 (Finset.mem_insert_self _ _)), if_neg (by norm_num)]
  have h4 : checkProximityCore (fun _ => (3500:ℝ)) [t] (insert t.id s0) now = ([], s0) := by
    rw [core_singleton]
    unfold proxStep
    rw [if_neg (fun hc => absurd hc.1 (by norm_num)), if_pos (by norm_num)]
    show (([] : List Notif), (insert t.id s0).erase t.id) = (([] : List Notif), s0)
    rw [Finset.erase_insert h]
  simp only [runUpdates, h1, h2, h3, h4]
  simp

/-- Witness for C2 at a concrete task, empty initial state. -/
theorem checkProximity_hysteresis_witness :
    ((⟨1, "milk", "shop", 0, 0, "u"⟩ : Task).id ∉ (∅ : Finset ℕ)) ∧
      ((runUpdates [2000, 1000, 1500, 3500, 1000]
          [⟨1, "milk", "shop", 0, 0, "u"⟩] ∅ 0).1.map List.length) = [0, 1, 0, 0, 1] :=
  ⟨Finset.not_mem_empty _, checkProximity_hysteresis ⟨1, "milk", "shop", 0, 0, "u"⟩ ∅ 0
    (Finset.not_mem_empty _)⟩

end Reminder

namespace Reminder

lemma mem_taskIds {tasks : List Task} {x : ℕ} :
    x ∈ taskIds tasks ↔ ∃ t ∈ tasks, t.id = x := by
  simp [taskIds]

lemma taskIds_cons (t : Task) (ts : List Task) :
    taskIds (t :: ts) = insert t.id (taskIds ts) := by
  simp [taskIds]

lemma foldl_stateStep_subset (distTo : Task → ℝ) (p : Finset ℕ) :
    ∀ (tasks : List Task) (s : Finset ℕ),
      tasks.foldl (stateStep distTo p) s ⊆ s ∪ taskIds tasks := by
  intro tasks
  induction tasks with
  | nil =>
    intro s
    rw [List.foldl_nil]
    exact Finset.subset_union_left
  | cons t ts ih =>
    intro s
    rw [List.foldl_cons]
    refine (ih (stateStep distTo p s t)).trans ?_
    intro x hx
    rw [Finset.mem_union] at hx
    rw [Finset.mem_union, taskIds_cons, Finset.mem_insert]
    rcases hx with hx | hx
    · have hstep : x ∈ insert t.id s := by
        revert hx
        unfold stateStep
        split_ifs with hc1 hc2
        · intro hx
          rw [Finset.mem_insert] at hx ⊢
          exact hx
        · intro hx
          exact Finset.mem_insert_of_mem (Finset.mem_of_mem_erase hx)
        · intro hx
          exact Finset.mem_insert_of_mem hx
      rw [Finset.mem_insert] at hstep
      rcases hstep with hstep | hstep
      · exact Or.inr (Or.inl hstep)
      · exact Or.inl hstep
    · exact Or.inr (Or.inr hx)

/-- C9: the invariant "the notification-state set references only
identifiers of current tasks" is preserved everywhere: `deleteTask`
removes the task from the list and unconditionally erases its identifier
from the set (preserving the invariant), and a `checkProximity` pass only
ever adds identifiers of tasks in the evaluated list (its result is
contained in the prior set united with the list's identifiers, hence in
the list's identifiers whenever the prior state satisfied the
invariant). -/
theorem notified_ids_invariant (i : ℕ) (tasks : List Task) (notified prior : Finset ℕ)
    (cur : Coord) (now : ℕ)
    (hn : notified ⊆ taskIds tasks) (hp : prior ⊆ taskIds tasks) :
    (deleteTask i tasks notified).1 = tasks.filter (fun task => task.id ≠ i) ∧
      i ∉ (deleteTask i tasks notified).2 ∧
      (deleteTask i tasks notified).2 ⊆ taskIds (deleteTask i tasks notified).1 ∧
      (checkProximity cur tasks prior now).2 ⊆ prior ∪ taskIds tasks ∧
      (checkProximity cur tasks prior now).2 ⊆ taskIds tasks := by
  have hsub : (checkProximity cur tasks prior now).2 ⊆ prior ∪ taskIds tasks := by
    unfold checkProximity
    rw [checkProximityCore_snd]
    exact foldl_stateStep_subset _ _ tasks prior
  refine ⟨rfl, Finset.not_mem_erase _ _, ?_, hsub, ?_⟩
  · intro x hx
    have hx2 : x ≠ i ∧ x ∈ notified := Finset.mem_erase.mp hx
    have hx3 : ∃ t ∈ tasks, t.id = x := mem_taskIds.mp (hn hx2.2)
    obtain ⟨t, ht, he⟩ := hx3
    rw [mem_taskIds]
    exact ⟨t, List.mem_filter.mpr ⟨ht, by simp [he, hx2.1]⟩, he⟩
  · refine hsub.trans ?_
    rw [Finset.union_subset_iff]
    exact ⟨hp, Finset.Subset.refl _⟩

/-- Witness for C9: delete identifier 1 while task 2 is tracked and
suppressed. -/
theorem notified_ids_invariant_witness :
    (({2} : Finset ℕ) ⊆ taskIds [⟨2, "milk", "shop", 0, 0, "u"⟩] ∧
        (∅ : Finset ℕ) ⊆ taskIds [⟨2, "milk", "shop", 0, 0, "u"⟩]) ∧
      ((deleteTask 1 [⟨2, "milk", "shop", 0, 0, "u"⟩] {2}).1 =
          [⟨2, "milk", "shop", 0, 0, "u"⟩].filter (fun task => task.id ≠ 1) ∧
        1 ∉ (deleteTask 1 [⟨2, "milk", "shop", 0, 0, "u"⟩] {2}).2 ∧
        (deleteTask 1 [⟨2, "milk", "shop", 0, 0, "u"⟩] {2}).2 ⊆
          taskIds (deleteTask 1 [⟨2, "milk", "shop", 0, 0, "u"⟩] {2}).1 ∧
        (checkProximity ⟨0, 0⟩ [⟨2, "milk", "shop", 0, 0, "u"⟩] ∅ 0).2 ⊆
          ∅ ∪ taskIds [⟨2, "milk", "shop", 0, 0, "u"⟩] ∧
        (checkProximity ⟨0, 0⟩ [⟨2, "milk", "shop", 0, 0, "u"⟩] ∅ 0).2 ⊆
          taskIds [⟨2, "milk", "shop", 0, 0, "u"⟩]) :=
  ⟨⟨by simp [taskIds], by simp⟩,
    notified_ids_invariant 1 [⟨2, "milk", "shop", 0, 0, "u"⟩] {2} ∅ ⟨0, 0⟩ 0
      (by simp [taskIds]) (by simp)⟩

end Reminder
